import Mathlib

/-!
Verification of the gifski-ffmpeg script (`src/script.rs`) against its
natural-language specification.

The script is shallowly embedded: Rust `String`/`OsString`/`PathBuf` values
are modelled as lists of characters (`Str`), Rust `f32` frame rates as exact
rationals, `u32` quality as `Nat`, fallible operations as `Except`/`Outcome`
values, and the two external subprocesses as environment-supplied
`CmdOutput` records.  The filesystem interaction of the script is confined
to the single temporary frames directory, modelled by `FsState`.
-/

namespace GifskiScript

/-- Character strings, modelling Rust `String` / `OsString` / `PathBuf`
contents as sequences of Unicode scalar values. -/
abbrev Str := List Char

/-! ## Path model

The script manipulates paths through `file_stem`, `extension`, `parent`,
`push` and `set_extension`.  We model a path as its textual form and
implement these operations for Unix-style paths whose components are
ordinary names (the model does not treat `.` / `..` components or trailing
slashes specially; all theorems below stay inside this domain). -/

/-- Splits a path at its last `/`: returns the prefix up to and including
the last slash, and the final component.  If the path has no slash the
prefix is empty. -/
def splitLast : Str → Str × Str
  | [] => ([], [])
  | c :: rest =>
      if '/' ∈ rest then
        let p := splitLast rest
        (c :: p.1, p.2)
      else if c = '/' then (['/'], rest)
      else ([], c :: rest)

/-- Splits a file name known to contain a dot at its last dot, returning
the part before and the part after it. -/
def splitExtAfter : Str → Str × Str
  | [] => ([], [])
  | c :: rest =>
      if '.' ∈ rest then
        let p := splitExtAfter rest
        (c :: p.1, p.2)
      else if c = '.' then ([], rest)
      else ([], [])

/-- Rust `Path::file_stem` / `Path::extension` semantics on a file name:
the name is split at its last dot provided that dot is not the leading
character; a name without such a dot has no extension. -/
def splitExt : Str → Str × Option Str
  | [] => ([], none)
  | c :: rest =>
      if '.' ∈ rest then
        let p := splitExtAfter rest
        (c :: p.1, some p.2)
      else (c :: rest, none)

/-- Final component of a path (Rust `Path::file_name` on normal paths). -/
def fileName (p : Str) : Str := (splitLast p).2

/-- Stem of a file name (Rust `Path::file_stem`). -/
def fileStem (f : Str) : Str := (splitExt f).1

/-- Extension of a file name (Rust `Path::extension`). -/
def extension? (f : Str) : Option Str := (splitExt f).2

/-- Rust `Path::parent`: drops the final component.  Returns `none` for an
empty path or the root, `some ""` for a bare file name. -/
def parent? (p : Str) : Option Str :=
  if (splitLast p).2 = [] then none
  else if (splitLast p).1 = [] then some []
  else if (splitLast p).1 = ['/'] then some ['/']
  else some (splitLast p).1.dropLast

/-- Models `input.parent().unwrap_or(&input)` from `parse_output`. -/
def parentOrSelf (p : Str) : Str := (parent? p).getD p

/-- Rust `PathBuf::push`: an absolute argument replaces the path, otherwise
the argument is appended, inserting a `/` separator when needed. -/
def push (p s : Str) : Str :=
  if s.head? = some '/' then s
  else if p = [] then s
  else if p.getLast? = some '/' then p ++ s
  else p ++ '/' :: s

/-- Rust `PathBuf::set_extension` on a path with a nonempty file name and a
nonempty new extension: the file name becomes its stem followed by a dot
and the new extension (replacing an existing extension, appending one
otherwise). -/
def setExtension (p e : Str) : Str :=
  (splitLast p).1 ++ fileStem (splitLast p).2 ++ '.' :: e

/-! ### Path lemmas -/

theorem splitLast_of_not_mem (f : Str) (h : '/' ∉ f) : splitLast f = ([], f) := by
  cases f with
  | nil => rfl
  | cons c rest =>
      have h1 : '/' ∉ rest := fun hm => h (List.mem_cons_of_mem _ hm)
      have h2 : ¬ c = '/' := fun hc => h (hc ▸ List.mem_cons_self _ _)
      simp [splitLast, h1, h2]

theorem splitLast_append (d f : Str) (h : '/' ∉ f) :
    splitLast (d ++ '/' :: f) = (d ++ ['/'], f) := by
  induction d with
  | nil => simp [splitLast, h]
  | cons a d ih =>
      have hm : '/' ∈ d ++ '/' :: f := by simp
      simp [splitLast, hm, ih]

theorem splitExtAfter_append (s e : Str) (h : '.' ∉ e) :
    splitExtAfter (s ++ '.' :: e) = (s, e) := by
  induction s with
  | nil => simp [splitExtAfter, h]
  | cons a s ih =>
      have hm : '.' ∈ s ++ '.' :: e := by simp
      simp [splitExtAfter, hm, ih]

theorem splitExt_append (st e : Str) (hst : st ≠ []) (h : '.' ∉ e) :
    splitExt (st ++ '.' :: e) = (st, some e) := by
  cases st with
  | nil => exact absurd rfl hst
  | cons c s =>
      have hm : '.' ∈ s ++ '.' :: e := by simp
      simp [splitExt, hm, splitExtAfter_append s e h]

theorem splitExt_of_not_mem (f : Str) (h : '.' ∉ f) : splitExt f = (f, none) := by
  cases f with
  | nil => rfl
  | cons c rest =>
      have h1 : '.' ∉ rest := fun hm => h (List.mem_cons_of_mem _ hm)
      simp [splitExt, h1]

theorem fileStem_of_extension_none (f : Str) (h : extension? f = none) :
    fileStem f = f := by
  cases f with
  | nil => rfl
  | cons c rest =>
      by_cases hm : '.' ∈ rest
      · exact absurd h (by simp [extension?, splitExt, hm])
      · simp [fileStem, splitExt, hm]

theorem parentOrSelf_append (d f : Str) (hf : '/' ∉ f) (hf2 : f ≠ []) (hd : d ≠ []) :
    parentOrSelf (d ++ '/' :: f) = d := by
  have h1 := splitLast_append d f hf
  have h2 : d ++ ['/'] ≠ ([] : Str) := by simp
  have h3 : d ++ ['/'] ≠ (['/'] : Str) := by
    intro hEq
    apply hd
    have hl := congrArg List.length hEq
    simp at hl
    exact hl
  simp [parentOrSelf, parent?, h1, hf2, h2, h3]

theorem push_eq (p s : Str) (hp : p ≠ []) (hpl : p.getLast? ≠ some '/')
    (hs : s.head? ≠ some '/') : push p s = p ++ '/' :: s := by
  simp [push, hp, hpl, hs]

theorem head_ne_of_not_mem (s : Str) (c : Char) (h : c ∉ s) (hs : s ≠ []) :
    s.head? ≠ some c := by
  cases s with
  | nil => exact absurd rfl hs
  | cons a rest =>
      intro hEq
      have ha : a = c := by simpa using hEq
      exact h (ha ▸ List.mem_cons_self _ _)

/-! ## Errors, panics and pipeline outcomes

Rust `Result` propagation (`?` / `bail!`) is modelled by the `err`
constructor; a process abort through `unwrap` / `expect` on `None` is the
distinct `panicked` constructor. -/

/-- Kinds of `io::Error` the modelled `fs` calls can raise. -/
inductive FsError where
  | notFound
  | alreadyExists
deriving DecidableEq, Repr

/-- Failure values of the script: the `anyhow` error raised when an
external tool exits with a failing status (carrying that exit code), the
`ParseFloatError` propagated out of `parse_fps`, and an I/O error
propagated out of an `fs` call. -/
inductive PipelineError where
  | frameRateParse
  | toolFailed (exitCode : Int)
  | fsFailure (e : FsError)
deriving DecidableEq, Repr

/-- Result of running a piece of the script: normal value, propagated
error, or process panic (from `unwrap` / `expect`). -/
inductive Outcome (α : Type) where
  | ok (value : α)
  | err (e : PipelineError)
  | panicked (msg : String)
deriving DecidableEq, Repr

/-- Panic message produced by `Option::unwrap` on `None`. -/
def unwrapNoneMsg : String := "called Option::unwrap on a None value"

/-! ## Frame-rate parsing

`parse_fps` matches the regex `(\d+(\.\d+)?)\s(fps)` against the ffmpeg
diagnostic text and parses capture group 1 as a float.  The matcher below
implements the leftmost-match semantics of that pattern directly.  The
regex class `\d` matches every Unicode decimal digit; we model the ASCII
digits together with the Arabic-Indic and Devanagari decimal-digit blocks,
which are representative of the non-ASCII digits (every other decimal-digit
block behaves identically: it is matched by `\d` and rejected by float
parsing). -/

/-- Non-ASCII Unicode decimal digits modelled (Arabic-Indic U+0660..U+0669
and Devanagari U+0966..U+096F). -/
def isNonAsciiDecimalDigit (c : Char) : Bool :=
  (0x660 ≤ c.toNat && c.toNat ≤ 0x669) || (0x966 ≤ c.toNat && c.toNat ≤ 0x96F)

/-- The regex character class `\d`. -/
def isReDigit (c : Char) : Bool := c.isDigit || isNonAsciiDecimalDigit c

/-- The regex character class `\s` (ASCII whitespace portion). -/
def isReSpace (c : Char) : Bool :=
  c = ' ' || c = '\t' || c = '\n' || c = '\x0b' || c = '\x0c' || c = '\r'

/-- Does the remainder of the text start with `\s` followed by the literal
letters `fps` (the part of the pattern after capture group 1)? -/
def fpsTokenAfter (s : Str) : Bool :=
  match s with
  | c :: 'f' :: 'p' :: 's' :: _ => isReSpace c
  | _ => false

/-- Attempts to match `(\d+(\.\d+)?)\s(fps)` at the start of `s`,
returning the text of capture group 1.  The greedy optional fraction is
tried first and dropped on failure, as in the regex engine. -/
def matchFpsAt (s : Str) : Option Str :=
  let ds := s.takeWhile isReDigit
  let rest := s.dropWhile isReDigit
  if ds = [] then none
  else
    (match rest with
     | '.' :: r2 =>
        let fs := r2.takeWhile isReDigit
        let r3 := r2.dropWhile isReDigit
        if fs ≠ [] && fpsTokenAfter r3 then some (ds ++ '.' :: fs) else none
     | _ => none).orElse
      (fun _ => if fpsTokenAfter rest then some ds else none)

/-- Leftmost match of the pattern over the whole text, as performed by
`Regex::captures`: the earliest start position wins. -/
def findFpsCapture : Str → Option Str
  | [] => none
  | c :: rest => (matchFpsAt (c :: rest)).orElse (fun _ => findFpsCapture rest)

/-- Integer value of a run of ASCII digits. -/
def natOfDigits (s : Str) : Nat :=
  s.foldl (fun a c => a * 10 + (c.toNat - '0'.toNat)) 0

/-- Rust `str::parse::<f32>` restricted to the shapes capture group 1 can
take (`\d+` optionally followed by `.` and `\d+`): parsing succeeds exactly
when every digit is ASCII, and the numeric value is modelled exactly as a
rational (the Rust code stores the nearest `f32`). -/
def parseDecimal? (s : Str) : Option ℚ :=
  let ip := s.takeWhile (fun c => c ≠ '.')
  let rest := s.dropWhile (fun c => c ≠ '.')
  match rest with
  | [] =>
      if ip ≠ [] && ip.all Char.isDigit then some (natOfDigits ip) else none
  | _ :: frac =>
      if ip ≠ [] && frac ≠ [] && ip.all Char.isDigit && frac.all Char.isDigit then
        some ((natOfDigits ip : ℚ) + (natOfDigits frac : ℚ) / (10 : ℚ) ^ frac.length)
      else none

/-- Model of `parse_fps`: `re.captures(stderr).unwrap()[1].parse()?`.  A
missing match panics through `unwrap`; a match that does not parse as a
float propagates the parse error. -/
def parse_fps (ffmpegStderr : Str) : Outcome ℚ :=
  match findFpsCapture ffmpegStderr with
  | none => .panicked unwrapNoneMsg
  | some cap =>
      match parseDecimal? cap with
      | none => .err .frameRateParse
      | some v => .ok v

/-- Model of the rate selection in `main`:
`if let Some(f) = opt.fps { f } else { parse_fps(&ffmpeg_stderr)? }`. -/
def resolveRate (explicitFps : Option ℚ) (stderrText : Str) : Outcome ℚ :=
  match explicitFps with
  | some f => .ok f
  | none => parse_fps stderrText

/-! ## External commands and clamping -/

/-- Exit status of a child process: `success()` and `code()` (the latter is
absent when the process was terminated by a signal). -/
structure ExitStatus where
  success : Bool
  code : Option Int
deriving DecidableEq, Repr

/-- Captured output of a child process, as returned by
`Command::output()`. -/
structure CmdOutput where
  status : ExitStatus
  stdout : Str
  stderr : Str
deriving DecidableEq, Repr

/-- The shared status check of `ffmpeg_command` and `gifski_command`:
`if !command.status.success() { bail!(..., command.status.code().unwrap()) }`.
A failing status without an exit code panics through `unwrap`. -/
def commandStatusCheck (res : CmdOutput) : Outcome Unit :=
  if res.status.success then .ok ()
  else
    match res.status.code with
    | some c => .err (.toolFailed c)
    | none => .panicked unwrapNoneMsg

/-- Model of `ffmpeg_command`: on success the captured stderr text is
returned for downstream rate parsing. -/
def ffmpeg_command (res : CmdOutput) : Outcome Str :=
  match commandStatusCheck res with
  | .ok _ => .ok res.stderr
  | .err e => .err e
  | .panicked m => .panicked m

/-- Rust `clamp` on the `u32` quality: `quality.clamp(0, 100)`. -/
def clampQuality (q : Nat) : Nat := max 0 (min q 100)

/-- Rust `clamp` on the `f32` frame rate: `frames.clamp(0.0, 50.0)`,
modelled over the rationals. -/
def clampRate (r : ℚ) : ℚ := max 0 (min r 50)

/-- The argument list `gifski_command` builds: clamped fps and quality, the
output path and the frame glob over the workspace. -/
structure GifskiInvocation where
  fps : ℚ
  quality : Nat
  outputPath : Str
  framesGlob : Str
deriving DecidableEq, Repr

/-- Arguments handed to the `gifski` process, after the clamping performed
at the top of `gifski_command`. -/
def gifski_args (quality : Nat) (frames : ℚ) (framesDir output : Str) :
    GifskiInvocation :=
  { fps := clampRate frames
    quality := clampQuality quality
    outputPath := output
    framesGlob := framesDir ++ "/frame*.png".data }

/-- Model of `gifski_command`: the invocation built from the clamped
parameters, together with the status check of the spawned process. -/
def gifski_command (quality : Nat) (frames : ℚ) (framesDir output : Str)
    (res : CmdOutput) : GifskiInvocation × Outcome Unit :=
  (gifski_args quality frames framesDir output, commandStatusCheck res)

/-! ## Output path resolution -/

/-- Model of `parse_output`.  With a specifier containing a `/` the
specifier is used verbatim; with a bare specifier it is pushed onto the
parent of the input, gaining a `gif` extension when it has none; with no
specifier the name `<file_stem>-gifski` is pushed onto the parent and given
the `gif` extension via `set_extension`. -/
def parse_output (input : Str) (output : Option Str) (file_name : Str) : Str :=
  let curr := parentOrSelf input
  match output with
  | some s =>
      if '/' ∈ s then s
      else if (extension? s).isSome then push curr s
      else setExtension (push curr s) "gif".data
  | none => setExtension (push curr (file_name ++ "-gifski".data)) "gif".data

/-! ## Filesystem model

The only filesystem state the script touches is the temporary frames
directory `temp_dir()/frames`. -/

/-- State of the temporary frames directory. -/
structure FsState where
  framesDirExists : Bool
  framesFiles : List Str
deriving DecidableEq, Repr

/-- Model of `fs::remove_dir_all(&frames_dir)`: removing a directory that
does not exist is an error (`NotFound`). -/
def remove_dir_all (st : FsState) : Except FsError FsState :=
  if st.framesDirExists then .ok { framesDirExists := false, framesFiles := [] }
  else .error .notFound

/-- Model of `fs::create_dir(&frames_dir)`. -/
def create_dir (st : FsState) : Except FsError FsState :=
  if st.framesDirExists then .error .alreadyExists
  else .ok { framesDirExists := true, framesFiles := [] }

/-- The workspace preparation of `main`, lines 72 and 73:
`fs::remove_dir_all(&frames_dir)?; fs::create_dir(&frames_dir)?`.  Both
results are propagated with `?`. -/
def prepareWorkspace (st : FsState) : Except FsError FsState :=
  match remove_dir_all st with
  | .error e => .error e
  | .ok st1 => create_dir st1

/-! ## The pipeline (`main`) -/

/-- The externally supplied configuration (`Opt`), after argument
parsing. -/
structure Config where
  input : Str
  output : Option Str
  quality : Nat
  fps : Option ℚ
deriving DecidableEq, Repr

/-- The environment a run executes in: the initial state of the frames
directory and the outputs of the two subprocesses. -/
structure World where
  fs : FsState
  ffmpegResult : CmdOutput
  gifskiResult : CmdOutput
deriving DecidableEq, Repr

/-- Observable stages of one pipeline run, recorded in execution order. -/
inductive Stage where
  | prepare
  | resolveOutput
  | extract
  | resolveRate
  | encode
  | cleanup
deriving DecidableEq, Repr

/-- Result of a full run: the stages that executed, the final state of the
frames directory, and the outcome. -/
structure RunResult where
  trace : List Stage
  fs : FsState
  outcome : Outcome Unit
deriving DecidableEq, Repr

/-- Model of `main` after argument parsing, mirroring the statement order
of the source: input stem check, workspace preparation, output resolution,
ffmpeg, rate resolution, gifski, cleanup.  Each `?` short-circuits the
remaining stages, including the final `remove_dir_all`. -/
def runMain (cfg : Config) (w : World) : RunResult :=
  if fileName cfg.input = [] then ⟨[], w.fs, .panicked "No input file specified."⟩
  else
    match remove_dir_all w.fs with
    | .error e => ⟨[.prepare], w.fs, .err (.fsFailure e)⟩
    | .ok fs1 =>
      match create_dir fs1 with
      | .error e => ⟨[.prepare], fs1, .err (.fsFailure e)⟩
      | .ok fs2 =>
        let outPath := parse_output cfg.input cfg.output (fileStem (fileName cfg.input))
        match ffmpeg_command w.ffmpegResult with
        | .panicked m => ⟨[.prepare, .resolveOutput, .extract], fs2, .panicked m⟩
        | .err e => ⟨[.prepare, .resolveOutput, .extract], fs2, .err e⟩
        | .ok stderrText =>
          match resolveRate cfg.fps stderrText with
          | .panicked m =>
              ⟨[.prepare, .resolveOutput, .extract, .resolveRate], fs2, .panicked m⟩
          | .err e =>
              ⟨[.prepare, .resolveOutput, .extract, .resolveRate], fs2, .err e⟩
          | .ok fps =>
            match (gifski_command cfg.quality fps "/tmp/frames".data outPath
                w.gifskiResult).2 with
            | .panicked m =>
                ⟨[.prepare, .resolveOutput, .extract, .resolveRate, .encode], fs2,
                  .panicked m⟩
            | .err e =>
                ⟨[.prepare, .resolveOutput, .extract, .resolveRate, .encode], fs2,
                  .err e⟩
            | .ok _ =>
              match remove_dir_all fs2 with
              | .error e =>
                  ⟨[.prepare, .resolveOutput, .extract, .resolveRate, .encode,
                    .cleanup], fs2, .err (.fsFailure e)⟩
              | .ok fs3 =>
                  ⟨[.prepare, .resolveOutput, .extract, .resolveRate, .encode,
                    .cleanup], fs3, .ok ()⟩

/-! ## Claim C7: clamping -/

/-- C7: every clamped quality lies in `[0, 100]`, every clamped frame rate
lies in `[0, 50]`, both clamps are idempotent, and `gifski_command` hands
the encoder exactly the clamped values. -/
theorem clamp_bounds_idempotent_and_used :
    (∀ q : Nat, 0 ≤ clampQuality q ∧ clampQuality q ≤ 100) ∧
    (∀ r : ℚ, 0 ≤ clampRate r ∧ clampRate r ≤ 50) ∧
    (∀ q : Nat, clampQuality (clampQuality q) = clampQuality q) ∧
    (∀ r : ℚ, clampRate (clampRate r) = clampRate r) ∧
    (∀ (q : Nat) (f : ℚ) (d o : Str) (res : CmdOutput),
      (gifski_command q f d o res).1.quality = clampQuality q ∧
      (gifski_command q f d o res).1.fps = clampRate f) := by
  refine ⟨fun q => ⟨Nat.zero_le _, max_le (Nat.zero_le _) (min_le_right _ _)⟩,
    fun r => ⟨le_max_left 0 _, max_le (by norm_num) (min_le_right _ _)⟩,
    fun q => ?_, fun r => ?_, fun q f d o res => ⟨rfl, rfl⟩⟩
  · simp [clampQuality, Nat.zero_max, Nat.min_assoc]
  · have h0 : 0 ≤ clampRate r := le_max_left _ _
    have h50 : clampRate r ≤ 50 := max_le (by norm_num) (min_le_right _ _)
    show max 0 (min (clampRate r) 50) = clampRate r
    rw [min_eq_left h50, max_eq_right h0]

/-! ## Claim C10: failing exit status without a code -/

/-- C10: when an external tool exits unsuccessfully with no exit code (for
example after being terminated by a signal), both command wrappers panic
through `unwrap` while constructing the failure message, instead of
returning an error value. -/
theorem missing_exit_code_panics (res : CmdOutput) (q : Nat) (f : ℚ) (d o : Str)
    (h1 : res.status.success = false) (h2 : res.status.code = none) :
    ffmpeg_command res = .panicked unwrapNoneMsg ∧
    (gifski_command q f d o res).2 = .panicked unwrapNoneMsg := by
  have hc : commandStatusCheck res = .panicked unwrapNoneMsg := by
    simp [commandStatusCheck, h1, h2]
  exact ⟨by simp [ffmpeg_command, hc], by simp [gifski_command, hc]⟩

/-- Witness for C10 at a concrete signal-terminated status. -/
theorem missing_exit_code_panics_witness :
    ffmpeg_command ⟨⟨false, none⟩, [], []⟩ = .panicked unwrapNoneMsg ∧
    (gifski_command 100 30 "/tmp/frames".data "/videos/out.gif".data
        ⟨⟨false, none⟩, [], []⟩).2 = .panicked unwrapNoneMsg :=
  missing_exit_code_panics ⟨⟨false, none⟩, [], []⟩ 100 30
    "/tmp/frames".data "/videos/out.gif".data rfl rfl

/-! ## Claim C2: workspace preparation -/

/-- C2 (claim corrected by the code): workspace preparation propagates the
`NotFound` error of `remove_dir_all` when the frames directory does not
already exist, instead of treating absence as success; only when a stale
directory exists does preparation succeed with an empty fresh directory. -/
theorem prepare_workspace_clean_system_errors :
    prepareWorkspace { framesDirExists := false, framesFiles := [] } = .error .notFound ∧
    (∀ files, prepareWorkspace { framesDirExists := true, framesFiles := files } =
      .ok { framesDirExists := true, framesFiles := [] }) :=
  ⟨rfl, fun _ => rfl⟩

/-! ## Claims C3 and C5: the frame-rate resolver -/

/-- C3 (amended): with no explicit rate, diagnostic text without any
number-whitespace-fps match makes the resolver panic through `unwrap`
rather than produce a typed error; only a match whose text does not parse
as a float yields the typed parse error. -/
theorem resolver_failure_modes (s : Str) :
    (findFpsCapture s = none → resolveRate none s = .panicked unwrapNoneMsg) ∧
    (∀ cap, findFpsCapture s = some cap → parseDecimal? cap = none →
      resolveRate none s = .err .frameRateParse) := by
  constructor
  · intro h
    simp [resolveRate, parse_fps, h]
  · intro cap h1 h2
    simp [resolveRate, parse_fps, h1, h2]

/-- Witness for C3: concrete no-match text (panic) and a concrete match
made of a non-ASCII digit (typed parse error). -/
theorem resolver_failure_modes_witness :
    resolveRate none "Duration: 00:00:10.00, bitrate: 1205 kb".data = .panicked unwrapNoneMsg ∧
    resolveRate none [Char.ofNat 0x663, ' ', 'f', 'p', 's'] = .err .frameRateParse :=
  ⟨(resolver_failure_modes _).1 (by decide),
   (resolver_failure_modes _).2 [Char.ofNat 0x663] (by decide) (by decide)⟩

/-- Counterexample to C3 as stated: on matchless text the resolver panics
and in particular does not fail with the typed parse error. -/
theorem parse_fps_no_match_panics_cex :
    resolveRate none "no frame rate in this text".data = .panicked unwrapNoneMsg ∧
    resolveRate none "no frame rate in this text".data ≠ .err .frameRateParse := by
  decide

/-- C5: an explicit configured rate is returned unclamped; otherwise the
resolver returns the value of the first number-whitespace-fps occurrence,
so `29.97 fps` yields `29.97` and `10 fps` before `20 fps` yields `10`. -/
theorem resolve_rate_explicit_and_first_match :
    (∀ (f : ℚ) (s : Str), resolveRate (some f) s = .ok f) ∧
    resolveRate none "Video: 1280x720, 29.97 fps, 30 tbr".data = .ok (2997 / 100) ∧
    resolveRate none "10 fps first, 20 fps later".data = .ok 10 := by
  refine ⟨fun f s => rfl, ?_, ?_⟩
  · simp only [resolveRate]
    have h1 : findFpsCapture "Video: 1280x720, 29.97 fps, 30 tbr".data
        = some "29.97".data := by decide
    have h2 : parseDecimal? "29.97".data =
        some ((natOfDigits "29".data : ℚ) +
          (natOfDigits "97".data : ℚ) / (10 : ℚ) ^ ("97".data).length) := rfl
    have h3 : natOfDigits "29".data = 29 := by decide
    have h4 : natOfDigits "97".data = 97 := by decide
    have h5 : ("97".data).length = 2 := by decide
    simp only [parse_fps, h1, h2, h3, h4, h5]
    norm_num
  · simp only [resolveRate]
    have h1 : findFpsCapture "10 fps first, 20 fps later".data = some "10".data := by
      decide
    have h2 : parseDecimal? "10".data = some ((natOfDigits "10".data : ℚ)) := rfl
    have h3 : natOfDigits "10".data = 10 := by decide
    simp only [parse_fps, h1, h2, h3]
    norm_num

/-! ## Claims C4, C6, C9: output path resolution -/

/-- C4 (amended): with no specifier, for a source path `d/stem.ext` whose
stem contains no dot, the output is the sibling `d/stem-gifski.gif`.  When
the stem contains a dot, `set_extension` instead replaces everything after
the last dot of `stem-gifski` (see the counterexample). -/
theorem output_default_path_of_plain_stem (d stem ext : Str)
    (hd : d ≠ []) (hdl : d.getLast? ≠ some '/')
    (hst : stem ≠ []) (hst1 : '/' ∉ stem) (hst2 : '.' ∉ stem)
    (he1 : '/' ∉ ext) (he2 : '.' ∉ ext) :
    parse_output (d ++ '/' :: (stem ++ '.' :: ext)) none
      (fileStem (fileName (d ++ '/' :: (stem ++ '.' :: ext)))) =
    d ++ '/' :: (stem ++ "-gifski.gif".data) := by
  have hfname : '/' ∉ stem ++ '.' :: ext := by
    intro hm
    rcases List.mem_append.mp hm with h | h
    · exact hst1 h
    · rcases List.mem_cons.mp h with h | h
      · exact absurd h (by decide)
      · exact he1 h
  have hfname2 : stem ++ '.' :: ext ≠ [] := by simp
  have hfn : fileName (d ++ '/' :: (stem ++ '.' :: ext)) = stem ++ '.' :: ext := by
    simp [fileName, splitLast_append _ _ hfname]
  have hstem : fileStem (stem ++ '.' :: ext) = stem := by
    simp [fileStem, splitExt_append _ _ hst he2]
  have hcurr : parentOrSelf (d ++ '/' :: (stem ++ '.' :: ext)) = d :=
    parentOrSelf_append _ _ hfname hfname2 hd
  have hname_dot : '.' ∉ stem ++ "-gifski".data := by
    intro hm
    rcases List.mem_append.mp hm with h | h
    · exact hst2 h
    · exact absurd h (by decide)
  have hname_sl : '/' ∉ stem ++ "-gifski".data := by
    intro hm
    rcases List.mem_append.mp hm with h | h
    · exact hst1 h
    · exact absurd h (by decide)
  have hname_ne : stem ++ "-gifski".data ≠ [] :=
    fun h => hst (List.append_eq_nil.mp h).1
  have hhead : (stem ++ "-gifski".data).head? ≠ some '/' :=
    head_ne_of_not_mem _ _ hname_sl hname_ne
  have hsplit : ("-gifski.gif").data = "-gifski".data ++ '.' :: "gif".data := by decide
  have hne : extension? (stem ++ "-gifski".data) = none := by
    rw [extension?, splitExt_of_not_mem _ hname_dot]
  rw [hfn, hstem]
  simp only [parse_output, hcurr]
  rw [push_eq d _ hd hdl hhead]
  simp only [setExtension, splitLast_append _ _ hname_sl]
  rw [fileStem_of_extension_none _ hne]
  simp [List.append_assoc]

/-- Counterexample to C4 as stated: a source whose stem contains a dot.
For `/videos/a.b.mp4` the resolved default output is `/videos/a.gif`, not
the sibling `/videos/a.b-gifski.gif` the claim promises. -/
theorem output_default_dotted_stem_cex :
    parse_output "/videos/a.b.mp4".data none
        (fileStem (fileName "/videos/a.b.mp4".data)) = "/videos/a.gif".data ∧
    parse_output "/videos/a.b.mp4".data none
        (fileStem (fileName "/videos/a.b.mp4".data)) ≠ "/videos/a.b-gifski.gif".data := by
  decide

/-- Witness for C4 at the concrete source path from the specification. -/
theorem output_default_path_of_plain_stem_witness :
    parse_output "/videos/clip.mp4".data none
        (fileStem (fileName "/videos/clip.mp4".data)) = "/videos/clip-gifski.gif".data :=
  (output_default_path_of_plain_stem "/videos".data "clip".data "mp4".data
    (by decide) (by decide) (by decide) (by decide) (by decide) (by decide)
    (by decide)).trans (by decide)

/-- C6: a specifier containing a slash is used verbatim with no extension
forced; a bare specifier with an extension is placed alongside the source
verbatim; a bare specifier without an extension is placed alongside the
source with the `gif` extension appended. -/
theorem output_specifier_cases (d fname s fn : Str)
    (hd : d ≠ []) (hdl : d.getLast? ≠ some '/')
    (hf : '/' ∉ fname) (hf2 : fname ≠ [])
    (hs : s ≠ []) :
    ('/' ∈ s → parse_output (d ++ '/' :: fname) (some s) fn = s) ∧
    ('/' ∉ s → (extension? s).isSome = true →
      parse_output (d ++ '/' :: fname) (some s) fn = d ++ '/' :: s) ∧
    ('/' ∉ s → extension? s = none →
      parse_output (d ++ '/' :: fname) (some s) fn = d ++ '/' :: (s ++ '.' :: "gif".data)) := by
  have hcurr : parentOrSelf (d ++ '/' :: fname) = d := parentOrSelf_append _ _ hf hf2 hd
  refine ⟨fun hin => ?_, fun hnin hext => ?_, fun hnin hext => ?_⟩
  · simp [parse_output, hin]
  · have hh : s.head? ≠ some '/' := head_ne_of_not_mem _ _ hnin hs
    simp [parse_output, hnin, hext, hcurr, push_eq d s hd hdl hh]
  · have hh : s.head? ≠ some '/' := head_ne_of_not_mem _ _ hnin hs
    simp [parse_output, hnin, hext, hcurr, push_eq d s hd hdl hh, setExtension,
      splitLast_append _ _ hnin, fileStem_of_extension_none _ hext]

/-- Witness for C6 at the three specifier shapes of the specification. -/
theorem output_specifier_cases_witness :
    parse_output "/videos/clip.mp4".data (some "sub/out.webp".data) "clip".data
      = "sub/out.webp".data ∧
    parse_output "/videos/clip.mp4".data (some "out.gif".data) "clip".data
      = "/videos/out.gif".data ∧
    parse_output "/videos/clip.mp4".data (some "out".data) "clip".data
      = "/videos/out.gif".data :=
  ⟨(output_specifier_cases "/videos".data "clip.mp4".data "sub/out.webp".data
      "clip".data (by decide) (by decide) (by decide) (by decide) (by decide)).1
      (by decide),
   ((output_specifier_cases "/videos".data "clip.mp4".data "out.gif".data
      "clip".data (by decide) (by decide) (by decide) (by decide) (by decide)).2.1
      (by decide) (by decide)).trans (by decide),
   ((output_specifier_cases "/videos".data "clip.mp4".data "out".data
      "clip".data (by decide) (by decide) (by decide) (by decide) (by decide)).2.2
      (by decide) (by decide)).trans (by decide)⟩

/-- C9: a specifier containing a backslash but no forward slash is treated
as a bare filename placed alongside the source (with the extension rules),
never used verbatim: only the forward slash counts as a separator. -/
theorem backslash_specifier_not_separator (d fname s fn : Str)
    (hd : d ≠ []) (hdl : d.getLast? ≠ some '/')
    (hf : '/' ∉ fname) (hf2 : fname ≠ [])
    (hs : s ≠ []) (_hb : '\\' ∈ s) (hns : '/' ∉ s) :
    parse_output (d ++ '/' :: fname) (some s) fn =
      (if (extension? s).isSome then d ++ '/' :: s
       else d ++ '/' :: (s ++ '.' :: "gif".data)) ∧
    parse_output (d ++ '/' :: fname) (some s) fn ≠ s := by
  have hcurr : parentOrSelf (d ++ '/' :: fname) = d := parentOrSelf_append _ _ hf hf2 hd
  have hh : s.head? ≠ some '/' := head_ne_of_not_mem _ _ hns hs
  have hdpos : 0 < d.length := List.length_pos.mpr hd
  cases hcase : extension? s with
  | some e =>
      have hmain : parse_output (d ++ '/' :: fname) (some s) fn = d ++ '/' :: s := by
        simp [parse_output, hns, hcase, hcurr, push_eq d s hd hdl hh]
      refine ⟨by simp [hcase, hmain], ?_⟩
      rw [hmain]
      intro hEq
      have hlen := congrArg List.length hEq
      simp [List.length_append] at hlen
      omega
  | none =>
      have hmain : parse_output (d ++ '/' :: fname) (some s) fn =
          d ++ '/' :: (s ++ '.' :: "gif".data) := by
        simp [parse_output, hns, hcase, hcurr, push_eq d s hd hdl hh, setExtension,
          splitLast_append _ _ hns, fileStem_of_extension_none _ hcase]
      refine ⟨by simp [hcase, hmain], ?_⟩
      rw [hmain]
      intro hEq
      have hlen := congrArg List.length hEq
      simp [List.length_append] at hlen
      omega

/-- Witness for C9 at a concrete backslash-bearing specifier. -/
theorem backslash_specifier_not_separator_witness :
    parse_output "/videos/clip.mp4".data (some "dir\\out".data) "clip".data
      = "/videos/dir\\out.gif".data ∧
    parse_output "/videos/clip.mp4".data (some "dir\\out".data) "clip".data
      ≠ "dir\\out".data :=
  ⟨((backslash_specifier_not_separator "/videos".data "clip.mp4".data "dir\\out".data
      "clip".data (by decide) (by decide) (by decide) (by decide) (by decide)
      (by decide) (by decide)).1).trans (by decide),
   (backslash_specifier_not_separator "/videos".data "clip.mp4".data "dir\\out".data
      "clip".data (by decide) (by decide) (by decide) (by decide) (by decide)
      (by decide) (by decide)).2⟩

/-! ## Claims C1 and C8: the pipeline -/

/-- C1 (amended): when the encoding tool exits with a nonzero status
carrying an exit code, the pipeline fails with the external-tool error
carrying that exit code, but the temporary frames directory is NOT removed:
workspace teardown runs only after a fully successful encode. -/
theorem gifski_failure_propagates_code_without_cleanup
    (cfg : Config) (w : World) (r : ℚ) (c : Int)
    (hin : fileName cfg.input ≠ [])
    (hfs : w.fs.framesDirExists = true)
    (hff : w.ffmpegResult.status.success = true)
    (hr : cfg.fps = some r)
    (hgs : w.gifskiResult.status.success = false)
    (hgc : w.gifskiResult.status.code = some c) :
    (runMain cfg w).outcome = .err (.toolFailed c) ∧
    (runMain cfg w).fs.framesDirExists = true ∧
    (runMain cfg w).trace =
      [.prepare, .resolveOutput, .extract, .resolveRate, .encode] := by
  have hrun : runMain cfg w =
      ⟨[.prepare, .resolveOutput, .extract, .resolveRate, .encode],
        { framesDirExists := true, framesFiles := [] }, .err (.toolFailed c)⟩ := by
    simp [runMain, hin, remove_dir_all, hfs, create_dir, ffmpeg_command,
      commandStatusCheck, hff, resolveRate, hr, gifski_command, hgs, hgc]
  rw [hrun]
  exact ⟨rfl, rfl, rfl⟩

/-- Witness for C1 (amended) at a concrete failing run. -/
theorem gifski_failure_propagates_code_without_cleanup_witness :
    (runMain
        { input := "/videos/movie.mkv".data, output := none, quality := 80,
          fps := some 24 }
        { fs := { framesDirExists := true, framesFiles := [] }
          ffmpegResult :=
            { status := { success := true, code := some 0 }, stdout := [], stderr := [] }
          gifskiResult :=
            { status := { success := false, code := some 7 }, stdout := [], stderr := [] } }).outcome
      = .err (.toolFailed 7) ∧
    (runMain
        { input := "/videos/movie.mkv".data, output := none, quality := 80,
          fps := some 24 }
        { fs := { framesDirExists := true, framesFiles := [] }
          ffmpegResult :=
            { status := { success := true, code := some 0 }, stdout := [], stderr := [] }
          gifskiResult :=
            { status := { success := false, code := some 7 }, stdout := [], stderr := [] } }).fs.framesDirExists
      = true ∧
    (runMain
        { input := "/videos/movie.mkv".data, output := none, quality := 80,
          fps := some 24 }
        { fs := { framesDirExists := true, framesFiles := [] }
          ffmpegResult :=
            { status := { success := true, code := some 0 }, stdout := [], stderr := [] }
          gifskiResult :=
            { status := { success := false, code := some 7 }, stdout := [], stderr := [] } }).trace
      = [.prepare, .resolveOutput, .extract, .resolveRate, .encode] :=
  gifski_failure_propagates_code_without_cleanup
    { input := "/videos/movie.mkv".data, output := none, quality := 80, fps := some 24 }
    { fs := { framesDirExists := true, framesFiles := [] }
      ffmpegResult :=
        { status := { success := true, code := some 0 }, stdout := [], stderr := [] }
      gifskiResult :=
        { status := { success := false, code := some 7 }, stdout := [], stderr := [] } }
    24 7 (by decide) rfl rfl rfl rfl rfl

/-- Counterexample to C1 as stated: in this failing run the encoder exits
with code 3 and the pipeline reports the error, yet the frames directory
still exists when the pipeline terminates, so teardown was not attempted
on the failure path. -/
theorem gifski_failure_leaves_workspace_cex :
    (runMain
        { input := "/videos/clip.mp4".data, output := none, quality := 100,
          fps := some 30 }
        { fs := { framesDirExists := true, framesFiles := [] }
          ffmpegResult :=
            { status := { success := true, code := some 0 }, stdout := [], stderr := [] }
          gifskiResult :=
            { status := { success := false, code := some 3 }, stdout := [], stderr := [] } }).outcome
      = .err (.toolFailed 3) ∧
    (runMain
        { input := "/videos/clip.mp4".data, output := none, quality := 100,
          fps := some 30 }
        { fs := { framesDirExists := true, framesFiles := [] }
          ffmpegResult :=
            { status := { success := true, code := some 0 }, stdout := [], stderr := [] }
          gifskiResult :=
            { status := { success := false, code := some 3 }, stdout := [], stderr := [] } }).fs.framesDirExists
      = true := by
  decide

/-- C8 (amended): a successful run executes its stages in the order
workspace preparation, output-path resolution, frame extraction, rate
resolution, encoding, cleanup — the output path is resolved before
extraction and before the frame rate. -/
theorem pipeline_stage_order
    (cfg : Config) (w : World) (r : ℚ)
    (hin : fileName cfg.input ≠ [])
    (hfs : w.fs.framesDirExists = true)
    (hff : w.ffmpegResult.status.success = true)
    (hr : cfg.fps = some r)
    (hgs : w.gifskiResult.status.success = true) :
    (runMain cfg w).trace =
      [.prepare, .resolveOutput, .extract, .resolveRate, .encode, .cleanup] ∧
    (runMain cfg w).outcome = .ok () := by
  have hrun : runMain cfg w =
      ⟨[.prepare, .resolveOutput, .extract, .resolveRate, .encode, .cleanup],
        { framesDirExists := false, framesFiles := [] }, .ok ()⟩ := by
    simp [runMain, hin, remove_dir_all, hfs, create_dir, ffmpeg_command,
      commandStatusCheck, hff, resolveRate, hr, gifski_command, hgs]
  rw [hrun]
  exact ⟨rfl, rfl⟩

/-- Witness for C8 (amended) at a concrete successful run. -/
theorem pipeline_stage_order_witness :
    (runMain
        { input := "/videos/demo.avi".data, output := none, quality := 90,
          fps := some 25 }
        { fs := { framesDirExists := true, framesFiles := [] }
          ffmpegResult :=
            { status := { success := true, code := some 0 }, stdout := [], stderr := [] }
          gifskiResult :=
            { status := { success := true, code := some 0 }, stdout := [], stderr := [] } }).trace
      = [.prepare, .resolveOutput, .extract, .resolveRate, .encode, .cleanup] ∧
    (runMain
        { input := "/videos/demo.avi".data, output := none, quality := 90,
          fps := some 25 }
        { fs := { framesDirExists := true, framesFiles := [] }
          ffmpegResult :=
            { status := { success := true, code := some 0 }, stdout := [], stderr := [] }
          gifskiResult :=
            { status := { success := true, code := some 0 }, stdout := [], stderr := [] } }).outcome
      = .ok () :=
  pipeline_stage_order
    { input := "/videos/demo.avi".data, output := none, quality := 90, fps := some 25 }
    { fs := { framesDirExists := true, framesFiles := [] }
      ffmpegResult :=
        { status := { success := true, code := some 0 }, stdout := [], stderr := [] }
      gifskiResult :=
        { status := { success := true, code := some 0 }, stdout := [], stderr := [] } }
    25 (by decide) rfl rfl rfl rfl

/-- Counterexample to C8 as stated: the recorded stage order of a concrete
successful run resolves the output path second, before extraction and
before rate resolution, so it differs from the claimed order. -/
theorem stage_order_cex :
    (runMain
        { input := "/videos/talk.mp4".data, output := none, quality := 100,
          fps := some 12 }
        { fs := { framesDirExists := true, framesFiles := [] }
          ffmpegResult :=
            { status := { success := true, code := some 0 }, stdout := [], stderr := [] }
          gifskiResult :=
            { status := { success := true, code := some 0 }, stdout := [], stderr := [] } }).trace
      = [.prepare, .resolveOutput, .extract, .resolveRate, .encode, .cleanup] ∧
    [Stage.prepare, .resolveOutput, .extract, .resolveRate, .encode, .cleanup] ≠
      [Stage.prepare, .extract, .resolveRate, .resolveOutput, .encode, .cleanup] := by
  decide

end GifskiScript
